import Mathlib

/-!
Verification of the monalive health-checking control plane.

This file gives a shallow embedding in Lean 4 of the parts of the monalive
source that the verified properties speak about:

* `internal/types/weight/weight.go` — the `Weight` type, `Recalculate` and
  `Uint32`;
* `internal/core/service` (quorum logic) — `processSucceed`, `processFailure`,
  `quorumState`, `enableService`, `disableService`, `updateAnnounce`;
* `internal/core/real/handler.go` — `disableReal`, `processFail`;
* `internal/core/checker/config.go` — the checker state machine
  (`enableChecker`, `failedAttempt`, `disableChecker`, `processSucceed`,
  `processFail`) and the checker fingerprint `Config.Key`;
* `internal/announcer/prefix.go` — `prefixState` with `ApplyServices`,
  `UpdateService` and `status`;
* `internal/utils/event_registry/registry.go` — the generic `Registry` with
  `Store` and `Process`;
* `internal/balancer/balancer.go` — the `updateBalancer` flush loop;
* `internal/balancer/yanet/yanet.go` — `updateReal` / `EnableReal` /
  `DisableReal` request construction.

Go machine integers are modelled as `Int` (overflow is made explicit with
`% 2^32` where the source converts to `uint32`); Go `float64` configuration
fields that are only copied, never computed with, are modelled as `Rat`;
Go maps are modelled as association lists or as functions to `Option`.
Wall-clock timestamps (`last_check_ts`) are outside the embedding.
-/

namespace Monalive

/-! ## Weight (internal/types/weight/weight.go)

`Weight` is a signed integer; all negative values are considered omitted. -/

abbrev Weight := Int

namespace Weight

/-- `Omitted` is the special value indicating the weight is not specified. -/
def Omitted : Weight := -1

/-- `Recalculate` from weight.go.  The receiver `weight` is the target (new)
value, `old` the previously known value, `coeff` the percentage coefficient
(a Go `uint`).  The two divisions below only happen with both operands
non-negative, where Go's truncated division agrees with Lean's `Int` division. -/
def Recalculate (weight old : Weight) (coeff : Nat) : Weight :=
  if weight < 0 ∧ old < 0 then Omitted
  else if weight < 0 then old
  else if old < 0 then weight
  else if coeff = 0 then weight
  else
    let oldValue : Int := old
    let step0 : Int := oldValue * (coeff : Int) / 100
    let step : Int := if step0 = 0 then 1 else step0
    if weight > old then min (oldValue + step) weight
    else max (oldValue - step) weight

/-- `Uint32` from weight.go: the weight as a Go `uint32`.  Negative weights map
to 0; the Go conversion `uint32(weight)` truncates modulo `2^32`. -/
def Uint32 (weight : Weight) : Nat :=
  if weight < 0 then 0 else (weight % (2 ^ 32 : Int)).toNat

end Weight

/-- The weight-recalculation rule exactly as the specification words it
(spec §3 "Weight"): with `old` / `new` both present, `step = max(1, old*c/100)`;
if `new > old` return `min(old+step, new)`, else return `max(old-step, new)`;
corner cases first: both omitted → omitted, one omitted → the other,
`c = 0` → `new` unchanged.  Stated separately from `Weight.Recalculate`
so that the two can be compared. -/
def recalcSpecRule (old new : Weight) (c : Nat) : Weight :=
  if old < 0 ∧ new < 0 then Weight.Omitted
  else if new < 0 then old
  else if old < 0 then new
  else if c = 0 then new
  else if new > old then min (old + max 1 (old * (c : Int) / 100)) new
  else max (old - max 1 (old * (c : Int) / 100)) new

/-- Helper for claim C2: `Recalculate` agrees with the spec's piecewise rule
on all integer inputs. -/
theorem recalculate_eq_specRule (w old : Weight) (c : Nat) :
    Weight.Recalculate w old c = recalcSpecRule old w c := by
  by_cases hw : w < 0
  · by_cases ho : old < 0 <;> simp [Weight.Recalculate, recalcSpecRule, hw, ho]
  by_cases ho : old < 0
  · simp [Weight.Recalculate, recalcSpecRule, hw, ho]
  by_cases hc : c = 0
  · simp [Weight.Recalculate, recalcSpecRule, hw, ho, hc]
  simp only [Weight.Recalculate, recalcSpecRule, hw, ho, hc, and_self,
    if_false, ite_false]
  have hnn : (0 : Int) ≤ old * (c : Int) / 100 :=
    Int.ediv_nonneg (mul_nonneg (not_lt.mp ho) (Int.natCast_nonneg c)) (by norm_num)
  have hst : (if old * (c : Int) / 100 = 0 then (1 : Int) else old * (c : Int) / 100)
      = max 1 (old * (c : Int) / 100) := by
    rcases eq_or_lt_of_le hnn with h0 | h0
    · rw [← h0]
      norm_num
    · have hne : old * (c : Int) / 100 ≠ 0 := ne_of_gt h0
      have h1 : (1 : Int) ≤ old * (c : Int) / 100 := h0
      rw [if_neg hne, max_eq_right h1]
  rw [hst]

/-- Sanity checks of `Recalculate` against rows of the repository's own
`TestRecalculate` table (weight_test.go). -/
example : Weight.Recalculate 20 10 1 = 11 := by decide

example : Weight.Recalculate 20 10 40 = 14 := by decide

example : Weight.Recalculate 10 20 1 = 19 := by decide

example : Weight.Recalculate 10 20 40 = 12 := by decide

example : Weight.Recalculate (-1) 20 40 = 20 := by decide

example : Weight.Recalculate 10 (-1) 40 = 10 := by decide

example : Weight.Recalculate (-1) (-3) 40 = Weight.Omitted := by decide

/-- Claim C2: `Weight.Recalculate` equals the spec's piecewise rule for all
integer inputs; in particular recalculation with `new = old = W ≥ 0` returns
`W` unchanged, and the result never moves past the target weight. -/
theorem claimC2_recalculate (w old : Weight) (c : Nat) :
    Weight.Recalculate w old c = recalcSpecRule old w c
    ∧ (0 ≤ old → Weight.Recalculate old old c = old)
    ∧ (0 ≤ w → 0 ≤ old → old < w → Weight.Recalculate w old c ≤ w)
    ∧ (0 ≤ w → 0 ≤ old → w ≤ old → w ≤ Weight.Recalculate w old c) := by
  refine ⟨recalculate_eq_specRule w old c, ?_, ?_, ?_⟩
  · intro h
    have hno : ¬ old < 0 := not_lt.mpr h
    rw [recalculate_eq_specRule]
    unfold recalcSpecRule
    rw [if_neg (fun hand => hno hand.1), if_neg hno, if_neg hno]
    by_cases hc : c = 0
    · rw [if_pos hc]
    · rw [if_neg hc, if_neg (lt_irrefl old)]
      have h1 : (1 : Int) ≤ max 1 (old * (c : Int) / 100) := le_max_left _ _
      exact max_eq_right (sub_le_self old (le_trans zero_le_one h1))
  · intro hw ho hlt
    have hnw : ¬ w < 0 := not_lt.mpr hw
    have hno : ¬ old < 0 := not_lt.mpr ho
    rw [recalculate_eq_specRule]
    unfold recalcSpecRule
    rw [if_neg (fun hand => hno hand.1), if_neg hnw, if_neg hno]
    by_cases hc : c = 0
    · rw [if_pos hc]
    · rw [if_neg hc, if_pos hlt]
      exact min_le_right _ _
  · intro hw ho hle
    have hnw : ¬ w < 0 := not_lt.mpr hw
    have hno : ¬ old < 0 := not_lt.mpr ho
    rw [recalculate_eq_specRule]
    unfold recalcSpecRule
    rw [if_neg (fun hand => hno hand.1), if_neg hnw, if_neg hno]
    by_cases hc : c = 0
    · rw [if_pos hc]
    · rw [if_neg hc, if_neg (not_lt.mpr hle)]
      exact le_max_right _ _

/-- Witness for claim C2 at concrete inputs (rows 3 and 8 of the repository
test table, and `W = 7`). -/
theorem claimC2_recalculate_witness :
    Weight.Recalculate 20 10 40 = recalcSpecRule 10 20 40
    ∧ Weight.Recalculate 7 7 30 = 7
    ∧ Weight.Recalculate 20 10 40 ≤ 20
    ∧ (10 : Int) ≤ Weight.Recalculate 10 20 40 :=
  ⟨(claimC2_recalculate 20 10 40).1,
   (claimC2_recalculate 7 7 30).2.1 (by norm_num),
   (claimC2_recalculate 20 10 40).2.2.1 (by norm_num) (by norm_num) (by norm_num),
   (claimC2_recalculate 10 20 40).2.2.2 (by norm_num) (by norm_num) (by norm_num)⟩

/-! ## Ports, addresses and balancer keys
(internal/types/port/port.go, internal/types/key/keys.go) -/

/-- `Port` is a Go `int32`; all negative values are considered omitted. -/
abbrev Port := Int

namespace Port

/-- `Omitted` is the special value indicating the port is not specified. -/
def Omitted : Port := -1

/-- `Value` from port.go: the port as a Go `uint16` (0 when omitted; the Go
conversion `uint16(p)` truncates modulo `2^16`). -/
def Value (p : Port) : Nat :=
  if p < 0 then 0 else (p % (2 ^ 16 : Int)).toNat

end Port

/-- Stand-in for `netip.Addr`: an opaque byte sequence.  The embedded code
only moves addresses around and compares them, so no address arithmetic is
modelled. -/
structure Addr where
  bytes : List Nat
deriving DecidableEq, Repr

/-- `key.Service`: (addr, optional port, proto).  The protocol enum is
modelled as a `Nat`. -/
structure ServiceKey where
  addr : Addr
  port : Port
  proto : Nat
deriving DecidableEq, Repr

/-- `key.Real`: (addr, optional port). -/
structure RealKey where
  addr : Addr
  port : Port
deriving DecidableEq, Repr

/-- `key.Balancer`: the (service, real) pair handed to the load balancer. -/
structure BalancerKey where
  service : ServiceKey
  real : RealKey
deriving DecidableEq, Repr

/-! ## YANET balancer client (internal/balancer/yanet/yanet.go) -/

/-- The `BalancerRealRequest_Real` protobuf message assembled by `updateReal`.
Optional protobuf fields are `Option`. -/
structure RealRequest where
  module : String
  virtualIp : Addr
  proto : Nat
  realIp : Addr
  enable : Bool
  virtualPortOpt : Option Nat
  realPortOpt : Option Nat
  weightOpt : Option Nat
deriving DecidableEq, Repr

/-- `updateReal` from yanet.go: build the request that updates one real.
Port options are filled only when the port is not `Omitted`; the weight option
is filled only on enable, as `weight.Uint32()`. -/
def updateReal (balancerKey : BalancerKey) (enable : Bool) (weight : Weight) :
    RealRequest :=
  let service := balancerKey.service
  let real := balancerKey.real
  { module := "balancer0"
    virtualIp := service.addr
    proto := service.proto
    realIp := real.addr
    enable := enable
    virtualPortOpt :=
      if service.port ≠ Port.Omitted then some (Port.Value service.port) else none
    realPortOpt :=
      if real.port ≠ Port.Omitted then some (Port.Value real.port) else none
    weightOpt := if enable then some (Weight.Uint32 weight) else none }

/-- `EnableReal` from yanet.go. -/
def EnableReal (balancerKey : BalancerKey) (weight : Weight) : RealRequest :=
  updateReal balancerKey true weight

/-- `DisableReal` from yanet.go (weight ignored in a disable request). -/
def DisableReal (balancerKey : BalancerKey) : RealRequest :=
  updateReal balancerKey false Weight.Omitted

/-- Counterexample to claim C10 as stated: `Weight.Uint32` does not return
every non-negative weight unchanged — the Go conversion truncates modulo
`2^32` and `Uint32 (2^32) = 0`. -/
theorem claimC10_counterexample :
    ¬ ∀ w : Weight, 0 ≤ w → (Weight.Uint32 w : Int) = w := by
  intro hall
  have h32 := hall (2 ^ 32) (by norm_num)
  have h0 : Weight.Uint32 (2 ^ 32) = 0 := by decide
  rw [h0] at h32
  norm_num at h32

/-- Claim C10, amended: `Uint32` maps every negative (omitted) weight to 0 and
a non-negative weight to its value modulo `2^32` (hence unchanged for weights
below `2^32`); since the yanet client encodes the enable-weight through
`Uint32`, an `EnableReal` with omitted weight produces exactly the same wire
request as an `EnableReal` with explicit weight 0. -/
theorem claimC10_uint32 (w : Weight) (k : BalancerKey) :
    (w < 0 → Weight.Uint32 w = 0)
    ∧ (0 ≤ w → (Weight.Uint32 w : Int) = w % 2 ^ 32)
    ∧ (0 ≤ w → w < 2 ^ 32 → (Weight.Uint32 w : Int) = w)
    ∧ EnableReal k Weight.Omitted = EnableReal k 0 := by
  refine ⟨?_, ?_, ?_, ?_⟩
  · intro h
    simp [Weight.Uint32, h]
  · intro h
    simp only [Weight.Uint32, not_lt.mpr h, if_false, ite_false]
    exact Int.toNat_of_nonneg (Int.emod_nonneg w (by norm_num))
  · intro h hlt
    simp only [Weight.Uint32, not_lt.mpr h, if_false, ite_false]
    rw [Int.emod_eq_of_lt h hlt]
    exact Int.toNat_of_nonneg h
  · simp [EnableReal, updateReal, Weight.Uint32, Weight.Omitted]

/-- Witness for claim C10 (amended) at concrete inputs. -/
theorem claimC10_uint32_witness :
    Weight.Uint32 (-5) = 0
    ∧ (Weight.Uint32 5 : Int) = 5 % 2 ^ 32
    ∧ (Weight.Uint32 5 : Int) = 5
    ∧ EnableReal ⟨⟨⟨[10, 0, 0, 1]⟩, 80, 6⟩, ⟨⟨[10, 0, 0, 2]⟩, 8080⟩⟩ Weight.Omitted
      = EnableReal ⟨⟨⟨[10, 0, 0, 1]⟩, 80, 6⟩, ⟨⟨[10, 0, 0, 2]⟩, 8080⟩⟩ 0 :=
  ⟨(claimC10_uint32 (-5) ⟨⟨⟨[]⟩, 0, 0⟩, ⟨⟨[]⟩, 0⟩⟩).1 (by norm_num),
   (claimC10_uint32 5 ⟨⟨⟨[]⟩, 0, 0⟩, ⟨⟨[]⟩, 0⟩⟩).2.1 (by norm_num),
   (claimC10_uint32 5 ⟨⟨⟨[]⟩, 0, 0⟩, ⟨⟨[]⟩, 0⟩⟩).2.2.1 (by norm_num) (by norm_num),
   (claimC10_uint32 0 ⟨⟨⟨[10, 0, 0, 1]⟩, 80, 6⟩, ⟨⟨[10, 0, 0, 2]⟩, 8080⟩⟩).2.2.2⟩

/-! ## Scheduler configuration (internal/scheduler/config.go)

Pointer-typed fields are `Option`; `time.Duration` values are integers in
nanoseconds.  The Go conversion `time.Duration(x)` of a `float64` truncates
toward zero. -/

/-- Truncation toward zero of a rational, as Go's float-to-int conversion. -/
def truncRat (q : Rat) : Int :=
  if q < 0 then Int.ceil q else Int.floor q

/-- Default scheduler values (60 s delay loop, 1 retry, 3 s retry delay),
in nanoseconds where durations. -/
def defaultDelayLoop : Int := 60 * 1000000000

def defaultRetries : Int := 1

def defaultRetryDelay : Int := 3 * 1000000000

/-- `scheduler.Config`: all three fields are optional (Go pointers). -/
structure SchedulerConfig where
  delayLoop : Option Rat
  retries : Option Int
  retryDelay : Option Rat
deriving DecidableEq, Repr

namespace SchedulerConfig

/-- `GetDelayLoop`: the configured delay loop in nanoseconds, defaulted. -/
def GetDelayLoop (m : SchedulerConfig) : Int :=
  match m.delayLoop with
  | none => defaultDelayLoop
  | some x => truncRat x * 1000000000

/-- `GetRetries`: the configured retry count, defaulted to 1. -/
def GetRetries (m : SchedulerConfig) : Int :=
  match m.retries with
  | none => defaultRetries
  | some r => r

/-- `GetRetryDelay`: the configured retry delay in nanoseconds, defaulted. -/
def GetRetryDelay (m : SchedulerConfig) : Int :=
  match m.retryDelay with
  | none => defaultRetryDelay
  | some x => truncRat x * 1000000000

end SchedulerConfig

/-! ## Checker configuration and fingerprint (internal/core/checker/config.go,
internal/core/checker/check/config.go) -/

/-- `checker.Type` (TCP / HTTP / HTTPS / gRPC). -/
inductive CheckerType
  | tcp
  | http
  | https
  | grpc
deriving DecidableEq, Repr

/-- `checker.Config`: the checker type plus the embedded `check.Config`
(URL + Net + WeightControl) and scheduler settings.  `float64` timeout fields
are modelled as `Rat` (they are only copied, never computed with). -/
structure CheckerConfig where
  type : CheckerType
  path : String
  statusCode : Int
  digest : String
  virtualhost : Option String
  connectIP : Addr
  connectPort : Port
  bindIP : Addr
  connectTimeout : Rat
  checkTimeout : Rat
  fwMark : Int
  dynamicWeight : Bool
  dynamicWeightHeader : Bool
  dynamicWeightCoeff : Nat
  scheduler : SchedulerConfig
deriving DecidableEq, Repr

/-- `checker.Key`: the full checker fingerprint, with pointers replaced by
values. -/
structure CheckerKey where
  ty : CheckerType
  connectIP : Addr
  connectPort : Port
  bindIP : Addr
  connectTimeout : Rat
  checkTimeout : Rat
  fwMark : Int
  path : String
  statusCode : Int
  digest : String
  virtualhost : String
  dynamicWeight : Bool
  dynamicWeightHeader : Bool
  dynamicWeightCoeff : Nat
  delayLoop : Int
  retries : Int
  retryDelay : Int
deriving DecidableEq, Repr

/-- `Config.Key()` from config.go.  As in the source, both the
`connectTimeout` and the `checkTimeout` fields of the fingerprint are filled
from the config's `CheckTimeout`. -/
def CheckerConfig.Key (m : CheckerConfig) : CheckerKey :=
  { ty := m.type
    connectIP := m.connectIP
    connectPort := m.connectPort
    bindIP := m.bindIP
    connectTimeout := m.checkTimeout
    checkTimeout := m.checkTimeout
    fwMark := m.fwMark
    path := m.path
    statusCode := m.statusCode
    digest := m.digest
    virtualhost := m.virtualhost.getD ""
    dynamicWeight := m.dynamicWeight
    dynamicWeightHeader := m.dynamicWeightHeader
    dynamicWeightCoeff := m.dynamicWeightCoeff
    delayLoop := m.scheduler.GetDelayLoop
    retries := m.scheduler.GetRetries
    retryDelay := m.scheduler.GetRetryDelay }

/-- Claim C9: the checker fingerprint fills both of its timeout fields from
`CheckTimeout`, so two configs that differ only in `ConnectTimeout` have equal
fingerprints. -/
theorem claimC9_checker_key (m : CheckerConfig) (t : Rat) :
    m.Key.connectTimeout = m.checkTimeout
    ∧ m.Key.checkTimeout = m.checkTimeout
    ∧ ({ m with connectTimeout := t } : CheckerConfig).Key = m.Key :=
  ⟨rfl, rfl, rfl⟩

/-! ## Events (package xevent, as used by the core)

The event's service/real/balancer key fields are routing data orthogonal to
the verified state logic and are not modelled here. -/

/-- `xevent` event kind: Enable / Disable / Shutdown. -/
inductive EventType
  | enable
  | disable
  | shutdown
deriving DecidableEq, Repr

/-- `xevent.Status`: an (enabled, weight) pair. -/
structure Status where
  enable : Bool
  weight : Weight
deriving DecidableEq, Repr

/-- `xevent.Event`: kind plus initial and new status. -/
structure Event where
  type : EventType
  init : Status
  new : Status
deriving DecidableEq, Repr

/-! ## Service quorum logic (internal/core/service, handler file) -/

/-- The per-service quorum configuration. -/
structure ServiceConfig where
  quorum : Int
  hysteresis : Int
deriving DecidableEq, Repr

/-- `service.State`. -/
structure ServiceState where
  alive : Bool
  weight : Weight
  realsAlive : Int
  transitions : Int
deriving DecidableEq, Repr

/-- The `quorum` decision type (quorumHold / quorumUp / quorumDown). -/
inductive Quorum
  | hold
  | up
  | down
deriving DecidableEq, Repr

/-- `quorumState`: decide up / down / hold from the aggregate weight. -/
def quorumState (config : ServiceConfig) (s : ServiceState) : Quorum :=
  if s.weight ≥ config.quorum + config.hysteresis then .up
  else if s.weight < config.quorum - config.hysteresis ∨ s.weight = 0 then .down
  else .hold

/-- `enableService`: returns the updated state and whether it changed. -/
def enableService (s : ServiceState) : ServiceState × Bool :=
  if s.alive then (s, false)
  else ({ s with alive := true, transitions := s.transitions + 1 }, true)

/-- `disableService`: returns the updated state and whether it changed. -/
def disableService (s : ServiceState) : ServiceState × Bool :=
  if !s.alive then (s, false)
  else ({ s with alive := false, transitions := s.transitions + 1 }, true)

/-- `updateAnnounce`: apply the quorum decision to the service state. -/
def updateAnnounce (config : ServiceConfig) (s : ServiceState) :
    ServiceState × Bool :=
  match quorumState config s with
  | .up => enableService s
  | .down => disableService s
  | .hold => (s, false)

/-- `processSucceed` (service): accounting for an Enable event. -/
def Service.processSucceed (event : Event) (s : ServiceState) : ServiceState :=
  let delta := event.new.weight - event.init.weight
  if !event.init.enable then
    { s with weight := s.weight + event.new.weight, realsAlive := s.realsAlive + 1 }
  else
    { s with weight := s.weight + delta }

/-- `processFailure` (service): accounting for a Disable / Shutdown event. -/
def Service.processFailure (event : Event) (s : ServiceState) : ServiceState :=
  { s with weight := s.weight - event.init.weight, realsAlive := s.realsAlive - 1 }

/-- The accounting stage of `Service.processEvent`: dispatch on event type. -/
def Service.processEventState (event : Event) (s : ServiceState) : ServiceState :=
  match event.type with
  | .enable => Service.processSucceed event s
  | .disable => Service.processFailure event s
  | .shutdown => Service.processFailure event s

/-- `processEvent` (service): accounting followed by the announce update.
Returns the new state and whether the announce status changed. -/
def Service.processEvent (config : ServiceConfig) (event : Event)
    (s : ServiceState) : ServiceState × Bool :=
  updateAnnounce config (Service.processEventState event s)

/-- Claim C1: after the accounting step of a RealEvent, the service is decided
Up when `w ≥ quorum + hysteresis`, Down when `w < quorum − hysteresis` or
`w = 0`, and otherwise keeps its whole state; alive flips (with a transitions
increment) exactly when the decided direction differs from the current alive
flag, and the announce-changed flag reports exactly those flips. -/
theorem claimC1_quorum (config : ServiceConfig) (event : Event)
    (s t : ServiceState) (ht : t = Service.processEventState event s) :
    Service.processEvent config event s = updateAnnounce config t
    ∧ (t.weight ≥ config.quorum + config.hysteresis →
        (updateAnnounce config t).1.alive = true
        ∧ (updateAnnounce config t).1.transitions
            = t.transitions + (if t.alive then 0 else 1))
    ∧ (¬ t.weight ≥ config.quorum + config.hysteresis →
        (t.weight < config.quorum - config.hysteresis ∨ t.weight = 0) →
        (updateAnnounce config t).1.alive = false
        ∧ (updateAnnounce config t).1.transitions
            = t.transitions + (if t.alive then 1 else 0))
    ∧ (¬ t.weight ≥ config.quorum + config.hysteresis →
        ¬ (t.weight < config.quorum - config.hysteresis ∨ t.weight = 0) →
        (updateAnnounce config t).1 = t)
    ∧ ((updateAnnounce config t).2 = true
        ↔ (updateAnnounce config t).1.alive ≠ t.alive)
    ∧ (updateAnnounce config t).1.weight = t.weight
    ∧ (updateAnnounce config t).1.realsAlive = t.realsAlive := by
  subst ht
  refine ⟨rfl, ?_, ?_, ?_, ?_, ?_, ?_⟩
  · intro h1
    by_cases ha : (Service.processEventState event s).alive <;>
      simp [updateAnnounce, quorumState, enableService, h1, ha]
  · intro h1 h2
    by_cases ha : (Service.processEventState event s).alive <;>
      simp [updateAnnounce, quorumState, disableService, h1, h2, ha]
  · intro h1 h2
    simp [updateAnnounce, quorumState, h1, h2]
  · by_cases h1 : (Service.processEventState event s).weight
        ≥ config.quorum + config.hysteresis
    · by_cases ha : (Service.processEventState event s).alive <;>
        simp [updateAnnounce, quorumState, enableService, h1, ha]
    · by_cases h2 : (Service.processEventState event s).weight
          < config.quorum - config.hysteresis
          ∨ (Service.processEventState event s).weight = 0
      · by_cases ha : (Service.processEventState event s).alive <;>
          simp [updateAnnounce, quorumState, disableService, h1, h2, ha]
      · simp [updateAnnounce, quorumState, h1, h2]
  · by_cases h1 : (Service.processEventState event s).weight
        ≥ config.quorum + config.hysteresis
    · by_cases ha : (Service.processEventState event s).alive <;>
        simp [updateAnnounce, quorumState, enableService, h1, ha]
    · by_cases h2 : (Service.processEventState event s).weight
          < config.quorum - config.hysteresis
          ∨ (Service.processEventState event s).weight = 0
      · by_cases ha : (Service.processEventState event s).alive <;>
          simp [updateAnnounce, quorumState, disableService, h1, h2, ha]
      · simp [updateAnnounce, quorumState, h1, h2]
  · by_cases h1 : (Service.processEventState event s).weight
        ≥ config.quorum + config.hysteresis
    · by_cases ha : (Service.processEventState event s).alive <;>
        simp [updateAnnounce, quorumState, enableService, h1, ha]
    · by_cases h2 : (Service.processEventState event s).weight
          < config.quorum - config.hysteresis
          ∨ (Service.processEventState event s).weight = 0
      · by_cases ha : (Service.processEventState event s).alive <;>
          simp [updateAnnounce, quorumState, disableService, h1, h2, ha]
      · simp [updateAnnounce, quorumState, h1, h2]

/-- Witness for claim C1: the end-to-end scenario of spec §8 — one real of
weight 1 enabled under quorum 1, hysteresis 0 brings the service Up with one
transition. -/
theorem claimC1_quorum_witness :
    (updateAnnounce ⟨1, 0⟩ ⟨false, 1, 1, 0⟩).1.alive = true
    ∧ (updateAnnounce ⟨1, 0⟩ ⟨false, 1, 1, 0⟩).1.transitions = 1 := by
  have h := (claimC1_quorum ⟨1, 0⟩ ⟨.enable, ⟨false, 1⟩, ⟨true, 1⟩⟩
    ⟨false, 0, 0, 0⟩ ⟨false, 1, 1, 0⟩ (by decide)).2.1 (by norm_num)
  simpa using h

/-- Claim C5: the service accounting step — Enable adds
`new.weight − init.weight` when the initial status was enabled, else adds
`new.weight` and one alive real; Disable / Shutdown subtract `init.weight`
and one alive real; nothing else in the service state is touched (the record
equalities fix every field). -/
theorem claimC5_accounting (event : Event) (s : ServiceState) :
    (event.type = .enable →
      Service.processEventState event s = Service.processSucceed event s)
    ∧ (event.type = .disable ∨ event.type = .shutdown →
      Service.processEventState event s = Service.processFailure event s)
    ∧ (event.init.enable = true →
      Service.processSucceed event s
        = { s with weight := s.weight + (event.new.weight - event.init.weight) })
    ∧ (event.init.enable = false →
      Service.processSucceed event s
        = { s with weight := s.weight + event.new.weight,
                   realsAlive := s.realsAlive + 1 })
    ∧ Service.processFailure event s
        = { s with weight := s.weight - event.init.weight,
                   realsAlive := s.realsAlive - 1 } := by
  refine ⟨?_, ?_, ?_, ?_, rfl⟩
  · intro h
    simp [Service.processEventState, h]
  · intro h
    rcases h with h | h <;> simp [Service.processEventState, h]
  · intro h
    simp [Service.processSucceed, h]
  · intro h
    simp [Service.processSucceed, h]

/-- Witness for claim C5 at a concrete Enable event and a concrete Disable
event. -/
theorem claimC5_accounting_witness :
    Service.processEventState ⟨.enable, ⟨false, 1⟩, ⟨true, 1⟩⟩ ⟨false, 0, 0, 0⟩
      = Service.processSucceed ⟨.enable, ⟨false, 1⟩, ⟨true, 1⟩⟩ ⟨false, 0, 0, 0⟩
    ∧ Service.processSucceed ⟨.enable, ⟨false, 1⟩, ⟨true, 1⟩⟩ ⟨false, 0, 0, 0⟩
      = ⟨false, 1, 1, 0⟩
    ∧ Service.processEventState ⟨.disable, ⟨true, 1⟩, ⟨false, -1⟩⟩ ⟨true, 1, 1, 1⟩
      = Service.processFailure ⟨.disable, ⟨true, 1⟩, ⟨false, -1⟩⟩ ⟨true, 1, 1, 1⟩
    ∧ Service.processFailure ⟨.disable, ⟨true, 1⟩, ⟨false, -1⟩⟩ ⟨true, 1, 1, 1⟩
      = ⟨true, 0, 0, 1⟩ := by
  refine ⟨(claimC5_accounting ⟨.enable, ⟨false, 1⟩, ⟨true, 1⟩⟩ ⟨false, 0, 0, 0⟩).1 rfl,
    ?_, (claimC5_accounting ⟨.disable, ⟨true, 1⟩, ⟨false, -1⟩⟩ ⟨true, 1, 1, 1⟩).2.1
      (Or.inl rfl), ?_⟩
  · have h := (claimC5_accounting ⟨.enable, ⟨false, 1⟩, ⟨true, 1⟩⟩
      ⟨false, 0, 0, 0⟩).2.2.2.1 rfl
    simpa using h
  · have h := (claimC5_accounting ⟨.disable, ⟨true, 1⟩, ⟨false, -1⟩⟩
      ⟨true, 1, 1, 1⟩).2.2.2.2
    simpa using h

/-! ## Real event handling (internal/core/real/real.go, handler.go) -/

/-- `real.State`. -/
structure RealState where
  alive : Bool
  weight : Weight
  transitions : Int
  dynWeight : Bool
  inhibited : Bool
deriving DecidableEq, Repr

/-- `State.Status()` from real.go: the reported status; an inhibited real
reports (enabled, weight 0). -/
def RealState.Status (s : RealState) : Status :=
  if s.inhibited then ⟨true, 0⟩ else ⟨s.alive, s.weight⟩

/-- The per-real configuration fields used by the disable path. -/
structure RealConfig where
  weight : Weight
  inhibitOnFailure : Bool
deriving DecidableEq, Repr

/-- `disableReal` from handler.go: returns the updated state and whether it
changed.  An already-disabled real is left untouched when it cannot be
inhibited (config flag off) or is already inhibited. -/
def Real.disableReal (config : RealConfig) (s : RealState) :
    RealState × Bool :=
  if !s.alive && !config.inhibitOnFailure then (s, false)
  else if !s.alive && s.inhibited then (s, false)
  else
    let s1 := if config.inhibitOnFailure then { s with inhibited := true } else s
    ({ s1 with alive := false, transitions := s1.transitions + 1 }, true)

/-- `processFail` from handler.go: handle a checker Disable event.  Returns
the updated state and the forwarded event (`none` when the event is
dropped).  When the real ends up inhibited the outgoing event is rewritten to
Enable with weight 0; `init` carries the pre-change reported status. -/
def Real.processFail (config : RealConfig) (event : Event) (s : RealState) :
    RealState × Option Event :=
  let initStatus := s.Status
  let r := Real.disableReal config s
  if r.2 = false then (s, none)
  else
    let s1 := r.1
    let ev1 :=
      if s1.inhibited then { event with type := .enable, new := ⟨true, 0⟩ }
      else event
    (s1, some { ev1 with init := initStatus })

/-- Sanity check mirroring the repository test
`TestHandleEvent_Inhibit_DisableInhibited`: disabling an already-inhibited
real drops the event and leaves the state unchanged. -/
example :
    Real.processFail ⟨1, true⟩ ⟨.disable, ⟨false, 0⟩, ⟨false, -1⟩⟩
      ⟨false, 1, 2, false, true⟩
    = (⟨false, 1, 2, false, true⟩, none) := by decide

/-- Counterexample to claim C3 as stated: with `inhibit_on_failure = true`
and the real already disabled and inhibited, the code drops the Disable event,
although the claim's "dropped exactly when already disabled, config false,
and not inhibited" predicts it is forwarded (this very input appears in the
repository test `TestHandleEvent_Inhibit_DisableInhibited`). -/
theorem claimC3_counterexample :
    (Real.processFail ⟨1, true⟩ ⟨.disable, ⟨false, 0⟩, ⟨false, -1⟩⟩
        ⟨false, 1, 2, false, true⟩).2 = none
    ∧ ¬ ((⟨false, 1, 2, false, true⟩ : RealState).alive = false
        ∧ (⟨1, true⟩ : RealConfig).inhibitOnFailure = false
        ∧ (⟨false, 1, 2, false, true⟩ : RealState).inhibited = false) := by
  decide

set_option linter.unreachableTactic false in
set_option linter.unusedTactic false in
/-- Claim C3, amended: a Disable event is dropped exactly when the real is
already disabled and either `inhibit_on_failure` is false or it is already
inhibited; a dropped event leaves the state untouched; a forwarded event sets
alive to false, sets inhibited when `inhibit_on_failure` is on, increments
transitions, carries the pre-change status in `init`, and is rewritten to
Enable with weight 0 exactly when the real ends up inhibited. -/
theorem claimC3_disable (config : RealConfig) (event : Event) (s : RealState) :
    ((Real.processFail config event s).2 = none
      ↔ s.alive = false
        ∧ (config.inhibitOnFailure = false ∨ s.inhibited = true))
    ∧ ((Real.processFail config event s).2 = none →
        (Real.processFail config event s).1 = s)
    ∧ (∀ e, (Real.processFail config event s).2 = some e →
        (Real.processFail config event s).1.alive = false
        ∧ (Real.processFail config event s).1.inhibited
            = (s.inhibited || config.inhibitOnFailure)
        ∧ (Real.processFail config event s).1.transitions = s.transitions + 1
        ∧ (Real.processFail config event s).1.weight = s.weight
        ∧ (Real.processFail config event s).1.dynWeight = s.dynWeight
        ∧ e.init = s.Status
        ∧ ((s.inhibited || config.inhibitOnFailure) = true →
            e.type = .enable ∧ e.new = ⟨true, 0⟩)
        ∧ ((s.inhibited || config.inhibitOnFailure) = false →
            e.type = event.type ∧ e.new = event.new)) := by
  by_cases ha : s.alive <;> by_cases hc : config.inhibitOnFailure <;>
    by_cases hi : s.inhibited <;>
    refine ⟨?_, ?_, ?_⟩ <;>
    simp [Real.processFail, Real.disableReal, ha, hc, hi] <;>
    intro e he <;> subst he <;> simp

/-- Witness for claim C3 (amended): disabling an alive real under
`inhibit_on_failure = true` forwards an Enable event with weight 0 whose
`init` is the pre-change status, and increments transitions. -/
theorem claimC3_disable_witness :
    (Real.processFail ⟨1, true⟩ ⟨.disable, ⟨false, 0⟩, ⟨false, -1⟩⟩
        ⟨true, 1, 0, false, false⟩).1.alive = false
    ∧ (Real.processFail ⟨1, true⟩ ⟨.disable, ⟨false, 0⟩, ⟨false, -1⟩⟩
        ⟨true, 1, 0, false, false⟩).1.inhibited
        = ((⟨true, 1, 0, false, false⟩ : RealState).inhibited
            || (⟨1, true⟩ : RealConfig).inhibitOnFailure)
    ∧ (Real.processFail ⟨1, true⟩ ⟨.disable, ⟨false, 0⟩, ⟨false, -1⟩⟩
        ⟨true, 1, 0, false, false⟩).1.transitions
        = (⟨true, 1, 0, false, false⟩ : RealState).transitions + 1
    ∧ (⟨.enable, ⟨true, 1⟩, ⟨true, 0⟩⟩ : Event).init
        = (⟨true, 1, 0, false, false⟩ : RealState).Status := by
  have h := (claimC3_disable ⟨1, true⟩ ⟨.disable, ⟨false, 0⟩, ⟨false, -1⟩⟩
    ⟨true, 1, 0, false, false⟩).2.2 ⟨.enable, ⟨true, 1⟩, ⟨true, 0⟩⟩ (by decide)
  exact ⟨h.1, h.2.1, h.2.2.1, h.2.2.2.2.2.1⟩

/-! ## Checker state machine (internal/core/checker/checker.go, the
ProcessCheck / processSucceed / processFail / enableChecker / disableChecker /
failedAttempt part of config.go)

The wall-clock `Timestamp` field is outside the embedding.  A probe outcome
is either a successful check (with the probe's reported weight and force
flag), a failed check, or the shutdown sentinel error. -/

/-- `checker.State` without the timestamp. -/
structure CheckerState where
  weight : Weight
  alive : Bool
  failedAttempts : Int
deriving DecidableEq, Repr

/-- One probe outcome as fed to `ProcessCheck`: `ok` carries the metadata of a
successful check (`md.Alive = true`), `fail` a failed check with a
non-shutdown error, `shutdown` a failed check with `ErrShutdown`. -/
inductive CheckInput
  | ok (weight : Weight) (force : Bool)
  | fail
  | shutdown
deriving DecidableEq, Repr

/-- `enableChecker`: enable if previously disabled, resetting the failure
counter; returns the state and whether it changed. -/
def Checker.enableChecker (s : CheckerState) : CheckerState × Bool :=
  if s.alive then (s, false)
  else ({ s with alive := true, failedAttempts := 0 }, true)

/-- `updateWeight`: update the weight only when dynamic weight is enabled and
the value changed; returns the state and whether it changed. -/
def Checker.updateWeight (config : CheckerConfig) (s : CheckerState)
    (weight : Weight) : CheckerState × Bool :=
  if !config.dynamicWeight then (s, false)
  else if s.weight = weight then (s, false)
  else ({ s with weight := weight }, true)

/-- `processSucceed` (checker): enable, recalculate the weight, and emit an
Enable event when the status or weight changed or the probe forced it.  The
emitted event's `new` status carries the checker weight (its `enable` flag is
the Go zero value false; the parent real overwrites both). -/
def Checker.processSucceed (config : CheckerConfig) (s : CheckerState)
    (mdWeight : Weight) (mdForce : Bool) : CheckerState × Option Event :=
  let r1 := Checker.enableChecker s
  let newWeight := Weight.Recalculate mdWeight r1.1.weight config.dynamicWeightCoeff
  let r2 := Checker.updateWeight config r1.1 newWeight
  if !r1.2 && !r2.2 && !mdForce then (r2.1, none)
  else (r2.1, some ⟨.enable, ⟨false, 0⟩, ⟨false, r2.1.weight⟩⟩)

/-- `failedAttempt`: increment the counter and report whether it now exceeds
the configured retries. -/
def Checker.failedAttempt (config : CheckerConfig) (s : CheckerState) :
    CheckerState × Bool :=
  let s1 := { s with failedAttempts := s.failedAttempts + 1 }
  (s1, decide (s1.failedAttempts > config.scheduler.GetRetries))

/-- `disableChecker`: on shutdown always report a change without touching the
state; otherwise count the failure and disable only when the threshold is
exceeded — reporting a change even when already disabled, so the real can
re-learn `inhibit_on_failure` after a reload. -/
def Checker.disableChecker (config : CheckerConfig) (s : CheckerState)
    (isShutdown : Bool) : CheckerState × Bool :=
  if isShutdown then (s, true)
  else
    let r := Checker.failedAttempt config s
    if !r.2 then (r.1, false)
    else ({ r.1 with alive := false }, true)

/-- `processFail` (checker): disable when the threshold is exceeded and emit a
Disable (or Shutdown) event with omitted weight. -/
def Checker.processFail (config : CheckerConfig) (s : CheckerState)
    (isShutdown : Bool) : CheckerState × Option Event :=
  let r := Checker.disableChecker config s isShutdown
  if r.2 = false then (r.1, none)
  else
    let eventType := if isShutdown then EventType.shutdown else EventType.disable
    (r.1, some ⟨eventType, ⟨false, 0⟩, ⟨false, Weight.Omitted⟩⟩)

/-- `ProcessCheck`: dispatch one probe outcome. -/
def Checker.processCheck (config : CheckerConfig) (s : CheckerState)
    (input : CheckInput) : CheckerState × Option Event :=
  match input with
  | .ok w force => Checker.processSucceed config s w force
  | .fail => Checker.processFail config s false
  | .shutdown => Checker.processFail config s true

/-- The checker states reachable from the initial state (`New` sets the
configured weight, alive false, zero failed attempts) by processing probe
outcomes. -/
inductive Checker.Reachable (config : CheckerConfig) : CheckerState → Prop
  | init (w0 : Weight) : Checker.Reachable config ⟨w0, false, 0⟩
  | step (s : CheckerState) (input : CheckInput) :
      Checker.Reachable config s →
      Checker.Reachable config (Checker.processCheck config s input).1

/-- Helper: `updateWeight` only ever touches the weight. -/
theorem Checker.updateWeight_preserves (config : CheckerConfig)
    (s : CheckerState) (w : Weight) :
    (Checker.updateWeight config s w).1.alive = s.alive
    ∧ (Checker.updateWeight config s w).1.failedAttempts = s.failedAttempts := by
  by_cases h1 : config.dynamicWeight <;> by_cases h2 : s.weight = w <;>
    simp [Checker.updateWeight, h1, h2]

/-- Helper: the state returned by the checker's `processSucceed` does not
depend on whether an event is emitted. -/
theorem Checker.processSucceed_fst (config : CheckerConfig) (s : CheckerState)
    (w : Weight) (force : Bool) :
    (Checker.processSucceed config s w force).1
      = (Checker.updateWeight config (Checker.enableChecker s).1
          (Weight.Recalculate w (Checker.enableChecker s).1.weight
            config.dynamicWeightCoeff)).1 := by
  unfold Checker.processSucceed
  dsimp only
  split <;> rfl

/-- Helper: the state returned by the checker's `processFail` does not depend
on whether an event is emitted. -/
theorem Checker.processFail_fst (config : CheckerConfig) (s : CheckerState)
    (isShutdown : Bool) :
    (Checker.processFail config s isShutdown).1
      = (Checker.disableChecker config s isShutdown).1 := by
  unfold Checker.processFail
  dsimp only
  split <;> rfl

/-- Helper invariant for claim C4: in every reachable checker state with a
non-negative configured retry count, an alive checker has at most `retries`
failed attempts. -/
theorem Checker.alive_failedAttempts_le (config : CheckerConfig)
    (hR : 0 ≤ config.scheduler.GetRetries) (s : CheckerState)
    (hreach : Checker.Reachable config s) :
    s.alive = true → s.failedAttempts ≤ config.scheduler.GetRetries := by
  induction hreach with
  | init w0 => intro h; simp at h
  | step s input hr ih =>
    intro halive
    cases input with
    | ok w force =>
      have hfst := Checker.processSucceed_fst config s w force
      have hpres := Checker.updateWeight_preserves config
        (Checker.enableChecker s).1
        (Weight.Recalculate w (Checker.enableChecker s).1.weight
          config.dynamicWeightCoeff)
      simp only [Checker.processCheck] at halive ⊢
      rw [hfst, hpres.2]
      by_cases hs : s.alive
      · simp only [Checker.enableChecker, hs, if_true, ite_true]
        exact ih hs
      · simp only [Checker.enableChecker, hs, if_false, ite_false,
          Bool.false_eq_true]
        exact hR
    | fail =>
      have hfst := Checker.processFail_fst config s false
      simp only [Checker.processCheck] at halive ⊢
      rw [hfst] at halive ⊢
      by_cases hexc : s.failedAttempts + 1 > config.scheduler.GetRetries
      · simp [Checker.disableChecker, Checker.failedAttempt, hexc] at halive
      · simp [Checker.disableChecker, Checker.failedAttempt, hexc]
        omega
    | shutdown =>
      have hfst := Checker.processFail_fst config s true
      simp only [Checker.processCheck] at halive ⊢
      rw [hfst] at halive ⊢
      simp only [Checker.disableChecker, if_true, ite_true] at halive ⊢
      exact ih halive

/-- A checker configuration with a retry count of 0 (as the repository's own
test helper `defaultChecker` configures: dynamic weight on, coefficient 30,
retries 0). -/
def retriesZeroConfig : CheckerConfig :=
  { type := .http
    path := ""
    statusCode := 0
    digest := ""
    virtualhost := none
    connectIP := ⟨[]⟩
    connectPort := Port.Omitted
    bindIP := ⟨[]⟩
    connectTimeout := 0
    checkTimeout := 0
    fwMark := 0
    dynamicWeight := true
    dynamicWeightHeader := false
    dynamicWeightCoeff := 30
    scheduler := ⟨none, some 0, none⟩ }

/-- Counterexample to claim C4 as stated: with retries = 0, a second
consecutive failure of an already-disabled checker emits Disable again (by
design, so the real can re-learn `inhibit_on_failure` after a reload) with
`failed_attempts = 2 > retries + 1 = 1`, at a reachable state. -/
theorem claimC4_counterexample :
    Checker.Reachable retriesZeroConfig
      (Checker.processCheck retriesZeroConfig ⟨1, false, 0⟩ .fail).1
    ∧ (Checker.processCheck retriesZeroConfig
        (Checker.processCheck retriesZeroConfig ⟨1, false, 0⟩ .fail).1 .fail).2
      = some ⟨.disable, ⟨false, 0⟩, ⟨false, Weight.Omitted⟩⟩
    ∧ (Checker.processCheck retriesZeroConfig
        (Checker.processCheck retriesZeroConfig ⟨1, false, 0⟩ .fail).1
          .fail).1.failedAttempts = 2
    ∧ ¬ ((Checker.processCheck retriesZeroConfig
        (Checker.processCheck retriesZeroConfig ⟨1, false, 0⟩ .fail).1
          .fail).1.failedAttempts
        ≤ retriesZeroConfig.scheduler.GetRetries + 1) := by
  refine ⟨Checker.Reachable.step ⟨1, false, 0⟩ .fail (Checker.Reachable.init 1),
    ?_, ?_, ?_⟩ <;> decide

/-- Claim C4, amended: whenever a reachable, currently-alive checker (with a
non-negative configured retry count) processes an input that makes it emit a
Disable event, the failure counter at that moment is at most `retries + 1`.
(Re-emissions from an already-disabled checker may exceed the bound, as the
counterexample shows.) -/
theorem claimC4_disable_bound (config : CheckerConfig) (s : CheckerState)
    (input : CheckInput) (e : Event)
    (hR : 0 ≤ config.scheduler.GetRetries)
    (hreach : Checker.Reachable config s)
    (halive : s.alive = true)
    (hemit : (Checker.processCheck config s input).2 = some e)
    (hdis : e.type = .disable) :
    (Checker.processCheck config s input).1.failedAttempts
      ≤ config.scheduler.GetRetries + 1 := by
  have hinv := Checker.alive_failedAttempts_le config hR s hreach halive
  cases input with
  | ok w force =>
    exfalso
    simp only [Checker.processCheck, Checker.processSucceed] at hemit
    by_cases hcond : (!(Checker.enableChecker s).2
        && !(Checker.updateWeight config (Checker.enableChecker s).1
          (Weight.Recalculate w (Checker.enableChecker s).1.weight
            config.dynamicWeightCoeff)).2 && !force) = true
    · simp [hcond] at hemit
    · simp [hcond] at hemit
      subst hemit
      simp at hdis
  | fail =>
    simp only [Checker.processCheck]
    rw [Checker.processFail_fst]
    by_cases hexc : s.failedAttempts + 1 > config.scheduler.GetRetries <;>
      simp [Checker.disableChecker, Checker.failedAttempt, hexc] <;> omega
  | shutdown =>
    exfalso
    simp only [Checker.processCheck, Checker.processFail,
      Checker.disableChecker] at hemit
    simp at hemit
    subst hemit
    simp at hdis

/-- Witness for claim C4 (amended): a freshly-enabled checker with retries 0
that fails once emits Disable with `failed_attempts = 1 ≤ retries + 1`. -/
theorem claimC4_disable_bound_witness :
    (Checker.processCheck retriesZeroConfig ⟨1, true, 0⟩ .fail).1.failedAttempts
      ≤ retriesZeroConfig.scheduler.GetRetries + 1 :=
  claimC4_disable_bound retriesZeroConfig ⟨1, true, 0⟩ .fail
    ⟨.disable, ⟨false, 0⟩, ⟨false, Weight.Omitted⟩⟩
    (by decide)
    (Checker.Reachable.step ⟨1, false, 0⟩ (.ok 1 false)
      (Checker.Reachable.init 1))
    rfl (by decide) rfl

/-! ## EventRegistry (internal/utils/event_registry/registry.go)

The Go map is modelled as an association list with unique keys (the list
order stands for one iteration order of the map).  The `Merge` method of the
`Comparable` interface is an explicit function `V → V → V × Bool`, where the
Bool is the `remove` flag. -/

namespace EventRegistry

variable {K V : Type} [DecidableEq K]

/-- Lookup of a key in the registry. -/
def lookup (k : K) : List (K × V) → Option V
  | [] => none
  | p :: rest => if p.1 = k then some p.2 else lookup k rest

/-- `Store` from registry.go: insert when absent; otherwise replace the entry
by `old.Merge(v)`, deleting it when the merge requests removal. -/
def Store (merge : V → V → V × Bool) (k : K) (v : V) :
    List (K × V) → List (K × V)
  | [] => [(k, v)]
  | p :: rest =>
    if p.1 = k then
      if (merge p.2 v).2 then rest
      else (k, (merge p.2 v).1) :: rest
    else p :: Store merge k v rest

/-- Store a sequence of values under one key, in order. -/
def storeAll (merge : V → V → V × Bool) (k : K) (r : List (K × V))
    (vs : List V) : List (K × V) :=
  vs.foldl (fun acc v => Store merge k v acc) r

/-- No merge in the sequence `vs` (folded onto `a`) requests removal. -/
def noDrop (merge : V → V → V × Bool) : V → List V → Prop
  | _, [] => True
  | a, b :: bs => (merge a b).2 = false ∧ noDrop merge (merge a b).1 bs

/-- `Process` from registry.go: run the processor over every entry, drop the
entries it succeeds on, and return the retained entries together with the
number of successfully processed ones. -/
def Process (processOk : K → V → Bool) :
    List (K × V) → List (K × V) × Nat
  | [] => ([], 0)
  | (k, v) :: rest =>
    let r := Process processOk rest
    if processOk k v then (r.1, r.2 + 1) else ((k, v) :: r.1, r.2)

/-- Storing under a key absent from the registry appends the new entry. -/
theorem Store_of_free (merge : V → V → V × Bool) (k : K) (v : V)
    (l : List (K × V)) (hfree : lookup k l = none) :
    Store merge k v l = l ++ [(k, v)] := by
  induction l with
  | nil => rfl
  | cons p rest ih =>
    by_cases hp : p.1 = k
    · simp [lookup, hp] at hfree
    · simp only [lookup, hp, if_false, ite_false] at hfree
      simp [Store, hp, ih hfree]

/-- Storing onto the unique entry for `k` (sitting after a `k`-free section)
either merges in place or deletes the entry. -/
theorem Store_at (merge : V → V → V × Bool) (k : K) (v a : V)
    (l : List (K × V)) (hfree : lookup k l = none) :
    Store merge k v (l ++ [(k, a)])
      = if (merge a v).2 then l else l ++ [(k, (merge a v).1)] := by
  induction l with
  | nil => simp [Store]
  | cons p rest ih =>
    by_cases hp : p.1 = k
    · simp [lookup, hp] at hfree
    · simp only [lookup, hp, if_false, ite_false] at hfree
      by_cases hm : (merge a v).2 <;>
        simp [Store, hp, hm, ih hfree]

/-- Lookup after the unique entry for `k` appended to a `k`-free section. -/
theorem lookup_append_at (k : K) (a : V) (l : List (K × V))
    (hfree : lookup k l = none) :
    lookup k (l ++ [(k, a)]) = some a := by
  induction l with
  | nil => simp [lookup]
  | cons p rest ih =>
    by_cases hp : p.1 = k
    · simp [lookup, hp] at hfree
    · simp only [lookup, hp, if_false, ite_false] at hfree
      simp [lookup, hp, ih hfree]

/-- Folding a no-drop sequence of stores onto the unique `k`-entry merges the
values in order. -/
theorem storeAll_at (merge : V → V → V × Bool) (k : K) (l : List (K × V))
    (hfree : lookup k l = none) :
    ∀ (vs : List V) (a : V), noDrop merge a vs →
      storeAll merge k (l ++ [(k, a)]) vs
        = l ++ [(k, vs.foldl (fun x y => (merge x y).1) a)] := by
  intro vs
  induction vs with
  | nil => intro a _; rfl
  | cons b bs ih =>
    intro a hnd
    obtain ⟨hb, hbs⟩ := hnd
    have hstep := Store_at merge k b a l hfree
    rw [hb] at hstep
    simp only [Bool.false_eq_true, if_false, ite_false] at hstep
    simp only [storeAll, List.foldl_cons]
    rw [hstep]
    exact ih ((merge a b).1) hbs

end EventRegistry

/-- Claim C8: starting from a registry without key `k`, storing `v₁, …, vₙ`
in order leaves (when no merge requests removal) exactly the left fold of the
merge operation at `k`; and one further store whose merge requests removal
deletes the entry, so `k` is absent immediately after that store. -/
theorem claimC8_registry_fold {K V : Type} [DecidableEq K]
    (merge : V → V → V × Bool) (r : List (K × V)) (k : K) (v w : V)
    (vs : List V) (hfree : EventRegistry.lookup k r = none) :
    (EventRegistry.noDrop merge v vs →
      EventRegistry.lookup k (EventRegistry.storeAll merge k r (v :: vs))
        = some (vs.foldl (fun a b => (merge a b).1) v))
    ∧ (EventRegistry.noDrop merge v vs →
      (merge (vs.foldl (fun a b => (merge a b).1) v) w).2 = true →
      EventRegistry.lookup k
        (EventRegistry.storeAll merge k r ((v :: vs) ++ [w])) = none) := by
  have hfirst : EventRegistry.Store merge k v r = r ++ [(k, v)] :=
    EventRegistry.Store_of_free merge k v r hfree
  have hchain : ∀ h : EventRegistry.noDrop merge v vs,
      EventRegistry.storeAll merge k r (v :: vs)
        = r ++ [(k, vs.foldl (fun a b => (merge a b).1) v)] := by
    intro h
    show List.foldl (fun acc x => EventRegistry.Store merge k x acc)
        (EventRegistry.Store merge k v r) vs = _
    rw [hfirst]
    exact EventRegistry.storeAll_at merge k r hfree vs v h
  constructor
  · intro h
    rw [hchain h]
    exact EventRegistry.lookup_append_at k _ r hfree
  · intro h hw
    have hsplit : EventRegistry.storeAll merge k r ((v :: vs) ++ [w])
        = EventRegistry.Store merge k w
            (EventRegistry.storeAll merge k r (v :: vs)) := by
      simp [EventRegistry.storeAll, List.foldl_append]
    rw [hsplit, hchain h,
      EventRegistry.Store_at merge k w _ r hfree, if_pos hw]
    exact hfree

/-- Merge used by the C8 witness: sum the values, request removal when the
sum cancels to zero. -/
def sumMerge : Int → Int → Int × Bool :=
  fun a b => (a + b, decide (a + b = 0))

/-- Witness for claim C8: storing 1, 2, 3 under one key folds to 6; a fourth
store of −6 cancels the entry. -/
theorem claimC8_registry_fold_witness :
    EventRegistry.lookup 0
        (EventRegistry.storeAll sumMerge 0 ([] : List (Nat × Int)) [1, 2, 3])
      = some 6
    ∧ EventRegistry.lookup 0
        (EventRegistry.storeAll sumMerge 0 ([] : List (Nat × Int))
          [1, 2, 3, -6]) = none := by
  have h := claimC8_registry_fold sumMerge ([] : List (Nat × Int)) 0 1 (-6)
    [2, 3] rfl
  refine ⟨?_, ?_⟩
  · have h1 := h.1 (by simp [EventRegistry.noDrop, sumMerge])
    simpa [sumMerge] using h1
  · have h2 := h.2 (by simp [EventRegistry.noDrop, sumMerge])
      (by simp [sumMerge])
    simpa [sumMerge] using h2

/-! ## BalancerSync flush loop (internal/balancer/balancer.go) -/

/-- A call the flush loop makes on the `LoadBalancerClient`. -/
inductive BalancerCall (K : Type)
  | enableReal (k : K) (weight : Weight)
  | disableReal (k : K)
  | flush
deriving DecidableEq, Repr

/-- The key a client call concerns (`none` for `Flush`). -/
def callKey {K : Type} : BalancerCall K → Option K
  | .enableReal k _ => some k
  | .disableReal k => some k
  | .flush => none

/-- The call the registry processor makes for one pending event:
`EnableReal` with the event's new weight when its new status is enabled,
otherwise `DisableReal`. -/
def processorCall {K : Type} (k : K) (event : Event) : BalancerCall K :=
  if event.new.enable then .enableReal k event.new.weight
  else .disableReal k

/-- `updateBalancer` from balancer.go, one tick over the pending entries:
process the registry (one client call per entry; successes are dropped,
failures retained), then call `Flush` once iff at least one entry was
processed.  `ok k e` tells whether the client call for that entry returned no
error.  Returns the calls made, in order, and the retained entries. -/
def updateBalancer {K : Type} [DecidableEq K] (ok : K → Event → Bool)
    (entries : List (K × Event)) :
    List (BalancerCall K) × List (K × Event) :=
  let calls := entries.map (fun p => processorCall p.1 p.2)
  let r := EventRegistry.Process (fun k e => ok k e) entries
  (calls ++ (if 0 < r.2 then [BalancerCall.flush] else []), r.1)

/-- Helper: `Process` retains exactly the failed entries and counts the
successes. -/
theorem Process_spec {K V : Type} (ok : K → V → Bool) (l : List (K × V)) :
    (EventRegistry.Process ok l).1 = l.filter (fun p => !(ok p.1 p.2))
    ∧ (EventRegistry.Process ok l).2 = l.countP (fun p => ok p.1 p.2) := by
  induction l with
  | nil => exact ⟨rfl, rfl⟩
  | cons p rest ih =>
    obtain ⟨k, v⟩ := p
    by_cases h : ok k v <;>
      simp [EventRegistry.Process, h, List.countP_cons, ih.1, ih.2]

/-- Helper: the processor never emits a `Flush` call. -/
theorem processorCall_ne_flush {K : Type} (k : K) (e : Event) :
    processorCall k e ≠ BalancerCall.flush := by
  unfold processorCall
  split <;> simp

/-- Helper: the processor's call concerns exactly the entry's key. -/
theorem callKey_processorCall {K : Type} (k : K) (e : Event) :
    callKey (processorCall k e) = some k := by
  unfold processorCall
  split <;> rfl

/-- Helper: with pairwise-distinct keys, the processed calls touch each key
at most once. -/
theorem calls_per_key_le_one {K : Type} [DecidableEq K]
    (entries : List (K × Event)) (k : K)
    (hnodup : (entries.map Prod.fst).Nodup) :
    ((entries.map (fun p => processorCall p.1 p.2)).filter
      (fun c => decide (callKey c = some k))).length ≤ 1 := by
  induction entries with
  | nil => simp
  | cons p rest ih =>
    simp only [List.map_cons, List.nodup_cons] at hnodup
    obtain ⟨hnot, hrest⟩ := hnodup
    simp only [List.map_cons, List.filter_cons]
    by_cases hk : p.1 = k
    · rw [if_pos (by simp [callKey_processorCall, hk])]
      have hnil : (rest.map (fun q => processorCall q.1 q.2)).filter
          (fun c => decide (callKey c = some k)) = [] := by
        rw [List.filter_eq_nil_iff]
        intro c hc
        obtain ⟨q, hq, hcq⟩ := List.mem_map.mp hc
        subst hcq
        rw [callKey_processorCall]
        simp only [decide_eq_true_eq, Option.some.injEq]
        intro hqk
        exact hnot (hk ▸ hqk ▸ List.mem_map_of_mem Prod.fst hq)
      simp [hnil]
    · rw [if_neg (by simp [callKey_processorCall, hk])]
      exact ih hrest

/-- Claim C7: in one flush-loop execution over the pending entries, exactly
one `EnableReal` / `DisableReal` call is made per entry (`EnableReal` iff the
event's new status is enabled, never both for one key when keys are unique);
an entry is retained exactly when its call errored; `Flush` is appended
exactly once iff at least one entry was processed successfully; and re-running
the loop on the retained entries after an all-success run makes no calls at
all. -/
theorem claimC7_flush_loop {K : Type} [DecidableEq K] (ok : K → Event → Bool)
    (entries : List (K × Event)) :
    (updateBalancer ok entries).1
      = entries.map (fun p => processorCall p.1 p.2)
        ++ (if 0 < entries.countP (fun p => ok p.1 p.2)
            then [BalancerCall.flush] else [])
    ∧ (∀ p : K × Event, processorCall p.1 p.2
        = if p.2.new.enable then BalancerCall.enableReal p.1 p.2.new.weight
          else BalancerCall.disableReal p.1)
    ∧ ((updateBalancer ok entries).1.filter
        (fun c => decide (c = BalancerCall.flush))).length
      = (if 0 < entries.countP (fun p => ok p.1 p.2) then 1 else 0)
    ∧ (updateBalancer ok entries).2 = entries.filter (fun p => !(ok p.1 p.2))
    ∧ ((entries.map Prod.fst).Nodup → ∀ k : K,
        ((updateBalancer ok entries).1.filter
          (fun c => decide (callKey c = some k))).length ≤ 1)
    ∧ ((∀ p ∈ entries, ok p.1 p.2 = true) →
        updateBalancer ok ((updateBalancer ok entries).2) = ([], [])) := by
  have hproc := Process_spec (fun (k : K) (e : Event) => ok k e) entries
  have hcalls : (updateBalancer ok entries).1
      = entries.map (fun p => processorCall p.1 p.2)
        ++ (if 0 < entries.countP (fun p => ok p.1 p.2)
            then [BalancerCall.flush] else []) := by
    simp only [updateBalancer, hproc.2]
  have hmapnil : ∀ l : List (K × Event),
      (l.map (fun p => processorCall p.1 p.2)).filter
        (fun c => decide (c = BalancerCall.flush)) = [] := by
    intro l
    rw [List.filter_eq_nil_iff]
    intro c hc
    obtain ⟨q, _, hcq⟩ := List.mem_map.mp hc
    subst hcq
    simpa using processorCall_ne_flush q.1 q.2
  refine ⟨hcalls, fun p => rfl, ?_, ?_, ?_, ?_⟩
  · rw [hcalls, List.filter_append, hmapnil]
    by_cases hpos : 0 < entries.countP (fun p => ok p.1 p.2) <;>
      simp [hpos]
  · simp only [updateBalancer, hproc.1]
  · intro hnodup k
    rw [hcalls, List.filter_append]
    have hflush : ((if 0 < entries.countP (fun p => ok p.1 p.2)
        then [BalancerCall.flush] else ([] : List (BalancerCall K))).filter
          (fun c => decide (callKey c = some k))) = [] := by
      by_cases hpos : 0 < entries.countP (fun p => ok p.1 p.2) <;>
        simp [hpos, callKey]
    rw [hflush, List.append_nil]
    exact calls_per_key_le_one entries k hnodup
  · intro hall
    have hrem : (updateBalancer ok entries).2 = [] := by
      simp only [updateBalancer, hproc.1]
      rw [List.filter_eq_nil_iff]
      intro p hp
      simp [hall p hp]
    rw [hrem]
    simp [updateBalancer, EventRegistry.Process]

/-- Witness for claim C7 at a concrete two-entry registry (an enable for key
0 and a disable for key 1) with an always-succeeding client. -/
theorem claimC7_flush_loop_witness :
    (((updateBalancer (fun (_ : Nat) (_ : Event) => true)
        [(0, ⟨.enable, ⟨false, 0⟩, ⟨true, 5⟩⟩),
         (1, ⟨.disable, ⟨true, 5⟩, ⟨false, -1⟩⟩)]).1.filter
      (fun c => decide (callKey c = some 0))).length ≤ 1)
    ∧ updateBalancer (fun (_ : Nat) (_ : Event) => true)
        ((updateBalancer (fun (_ : Nat) (_ : Event) => true)
          [(0, ⟨.enable, ⟨false, 0⟩, ⟨true, 5⟩⟩),
           (1, ⟨.disable, ⟨true, 5⟩, ⟨false, -1⟩⟩)]).2) = ([], []) :=
  ⟨(claimC7_flush_loop (fun (_ : Nat) (_ : Event) => true)
      [(0, ⟨.enable, ⟨false, 0⟩, ⟨true, 5⟩⟩),
       (1, ⟨.disable, ⟨true, 5⟩, ⟨false, -1⟩⟩)]).2.2.2.2.1 (by decide) 0,
   (claimC7_flush_loop (fun (_ : Nat) (_ : Event) => true)
      [(0, ⟨.enable, ⟨false, 0⟩, ⟨true, 5⟩⟩),
       (1, ⟨.disable, ⟨true, 5⟩, ⟨false, -1⟩⟩)]).2.2.2.2.2 (by decide)⟩

/-! ## Announcer prefix state (internal/announcer/prefix.go)

`prefixState` keeps the set of services bound to a prefix with a per-service
enabled flag, an active count and a quorum.  The Go map is modelled as an
association list with unique keys (built with first-occurrence insertion, as
repeated map inserts collapse). -/

namespace Announcer

/-- `prefixState`: per-service enabled flags, active count and quorum. -/
structure PrefixState (K : Type) where
  services : List (K × Bool)
  active : Int
  quorum : Int
deriving DecidableEq, Repr

/-- Build the Go service set `map[key.Service]ServiceStatus` with every flag
`ServiceDisabled`: duplicate keys collapse. -/
def buildServicesSet {K : Type} [DecidableEq K] (services : List K) :
    List (K × Bool) :=
  services.foldl
    (fun acc s =>
      if (EventRegistry.lookup s acc).isSome then acc else acc ++ [(s, false)])
    []

/-- `newState` from prefix.go: all services disabled, active 0, quorum the
size of the service set. -/
def newState {K : Type} [DecidableEq K] (services : List K) : PrefixState K :=
  let servicesSet := buildServicesSet services
  { services := servicesSet
    active := 0
    quorum := (servicesSet.length : Int) }

/-- `status` from prefix.go: Ready iff the active count meets the quorum and
is non-zero. -/
def status {K : Type} (m : PrefixState K) : Bool :=
  decide (m.quorum = m.active ∧ m.active ≠ 0)

/-- `ApplyServices` from prefix.go: build the new (all-disabled) service set,
decrement `active` for enabled services that are no longer present, replace
the service set wholesale, and set the quorum to the length of the new
service list. -/
def ApplyServices {K : Type} [DecidableEq K] (m : PrefixState K)
    (newServices : List K) : PrefixState K :=
  let newServicesSet := buildServicesSet newServices
  let active1 := m.services.foldl
    (fun a p =>
      if (EventRegistry.lookup p.1 newServicesSet).isSome then a
      else if p.2 then a - 1 else a)
    m.active
  { services := newServicesSet
    active := active1
    quorum := (newServices.length : Int) }

/-- `UpdateService` from prefix.go: update one service's flag and the active
count; unknown services and unchanged flags leave the state untouched.
Returns the updated state and the prefix status after the update. -/
def UpdateService {K : Type} [DecidableEq K] (m : PrefixState K) (service : K)
    (newStatus : Bool) : PrefixState K × Bool :=
  match EventRegistry.lookup service m.services with
  | none => (m, status m)
  | some currStatus =>
    if currStatus = newStatus then (m, status m)
    else
      let active1 := if newStatus then m.active + 1 else m.active - 1
      let m1 : PrefixState K :=
        { m with
            services := m.services.map
              (fun p => if p.1 = service then (service, newStatus) else p)
            active := active1 }
      (m1, status m1)

end Announcer

/-- Claim C6 is violated by the code: evaluating the source functions on the
trace newState [A]; UpdateService A Enabled; ApplyServices [A, B];
UpdateService A Enabled yields status Ready although service B was never
enabled — `ApplyServices` resets every retained flag to Disabled without
adjusting `active`, so the subsequent re-enable of A double-counts.  The
conjuncts exhibit the broken intermediate state (`active = 1` with every flag
false) and the final Ready with B still disabled. -/
theorem claimC6_prefix_ready_bug :
    (Announcer.ApplyServices
        (Announcer.UpdateService (Announcer.newState [0]) 0 true).1
        [0, 1]).active = 1
    ∧ (Announcer.ApplyServices
        (Announcer.UpdateService (Announcer.newState [0]) 0 true).1
        [0, 1]).services = [(0, false), (1, false)]
    ∧ Announcer.status (Announcer.UpdateService
        (Announcer.ApplyServices
          (Announcer.UpdateService (Announcer.newState [0]) 0 true).1
          [0, 1])
        0 true).1 = true
    ∧ EventRegistry.lookup 1 ((Announcer.UpdateService
        (Announcer.ApplyServices
          (Announcer.UpdateService (Announcer.newState [0]) 0 true).1
          [0, 1])
        0 true).1).services = some false := by
  decide

end Monalive
